import Mathlib

/-!
Shallow embedding of the KotlinDSL test-automation repository
(`src/config/settings.py`, `src/utils/teamcity_client.py`,
`src/utils/test_helpers.py`, `src/tests/test_dsl_import.py`)
and proofs about it.

Modelling conventions:
* JSON values (decoded response bodies, request payloads) are the
  inductive `Json`; Python `None` is `Json.null`, Python dicts are
  ordered association lists (`Json.obj`), mirroring Python 3.7+
  insertion order.
* Time is discrete: a call to `time.sleep(p)` advances the clock by
  exactly `p`, predicate evaluations and HTTP calls are instantaneous,
  so the elapsed time after `k` sleeps of length `P` is `k * P`.
* A loop `while ...` is embedded as a structurally recursive function
  over an explicit fuel; the top-level wrappers pass `timeout + 1`
  fuel, which is proved sufficient whenever the poll interval is
  positive, so the fuel-exhausted branch (`none`) is unreachable there.
* The HTTP transport is an oracle: for the retrying request primitive,
  `attempts : Nat → ReqResult` gives the outcome of each attempt
  (success carries the decoded body; failure carries an error token
  standing for the `requests.exceptions.RequestException` raised,
  covering both transport faults and `raise_for_status` on a non-2xx
  status).  `Except Nat α` is the result channel: `.error e` is a
  raised exception, `.ok` a normal return.
-/

/-- JSON values as decoded by `response.json()`; `null` doubles as
Python `None` (the result of `dict.get` on a missing key). -/
inductive Json where
  | null
  | bool (b : Bool)
  | num (n : Int)
  | str (s : String)
  | arr (elems : List Json)
  | obj (fields : List (String × Json))
deriving Repr

/-- Python `d.get(k)` on a decoded JSON object: the first binding of
`k`, or `none` when the key is absent (or the value is not a dict). -/
def Json.getKey : Json → String → Option Json
  | .obj fields, k => fields.lookup k
  | _, _ => none

/-! ## `src/config/settings.py` -/

/-- `Settings.MAX_RETRIES` from `settings.py`. -/
def MAX_RETRIES : Nat := 3

/-- `Settings.POLL_INTERVAL` from `settings.py`. -/
def POLL_INTERVAL : Nat := 2

/-- `Settings.TIMEOUT` from `settings.py`. -/
def TIMEOUT : Nat := 30

/-- The value returned by the `Settings.auth` property: a header dict
when a bearer token is configured, otherwise the `(username, password)`
tuple. -/
inductive AuthConfig where
  | headerAuth (header : String × String)
  | basicPair (user pw : String)
deriving Repr, DecidableEq

/-- `Settings.auth`: `if self.TEAMCITY_TOKEN:` (Python truthiness of a
string is non-emptiness) `return {'Authorization': f'Bearer {token}'}`
else `return (username, password)`. -/
def Settings.auth (token user pw : String) : AuthConfig :=
  if token ≠ "" then
    .headerAuth ("Authorization", "Bearer " ++ token)
  else
    .basicPair user pw

/-- The observable state of the `requests.Session` configured by
`TeamCityClient.__init__`: `session.auth` (HTTP basic credentials used
on every request when set) and `session.headers` (sent on every
request). -/
structure SessionConfig where
  basicAuth : Option (String × String)
  headers : List (String × String)
deriving Repr, DecidableEq

/-- `TeamCityClient.__init__`: applies `settings.auth` — a tuple is
assigned to `session.auth`, a dict is merged into `session.headers` —
then merges the `Accept`/`Content-Type` headers. -/
def clientInit (token user pw : String) : SessionConfig :=
  let auth := Settings.auth token user pw
  let s0 : SessionConfig := { basicAuth := none, headers := [] }
  let s1 : SessionConfig :=
    match auth with
    | .basicPair u p => { s0 with basicAuth := some (u, p) }
    | .headerAuth h => { s0 with headers := s0.headers ++ [h] }
  { s1 with
    headers := s1.headers ++
      [("Accept", "application/json"), ("Content-Type", "application/json")] }

/-- `true` when the session carries an `Authorization` header. -/
def hasAuthHeader (c : SessionConfig) : Bool :=
  c.headers.any fun h => h.1 == "Authorization"

/-! ## `TeamCityClient._make_request` -/

/-- Outcome of one attempt of `self.session.request` followed by
`response.raise_for_status()`: success with the decoded body, or a
`requests.exceptions.RequestException` (transport fault or non-2xx
status), identified by an error token. -/
inductive ReqResult where
  | success (body : Json)
  | failure (err : Nat)
deriving Repr

/-- `true` exactly on the `failure` outcome. -/
def ReqResult.isFailure : ReqResult → Bool
  | .failure _ => true
  | .success _ => false

/-- The `for attempt in range(settings.MAX_RETRIES)` loop of
`TeamCityClient._make_request`, from iteration `attempt` on, with the
retry budget `R` standing for `settings.MAX_RETRIES`.  Returns the
result (`some (.ok body)` = normal return, `some (.error e)` = the
re-raised exception, `none` = the loop fell through, returning Python
`None`) paired with the number of attempts made from this point.
Fuel `R` is exact: each iteration consumes one unit and the loop body
runs at most `R` times. -/
def makeRequestLoop (attempts : Nat → ReqResult) (R : Nat) :
    Nat → Nat → Option (Except Nat Json) × Nat
  | 0, _ => (none, 0)
  | fuel + 1, attempt =>
    if attempt < R then
      match attempts attempt with
      | .success body => (some (.ok body), 1)
      | .failure e =>
        if attempt = R - 1 then
          (some (.error e), 1)
        else
          let r := makeRequestLoop attempts R fuel (attempt + 1)
          (r.1, r.2 + 1)
    else
      (none, 0)

/-- `TeamCityClient._make_request` with retry budget `R`
(= `settings.MAX_RETRIES` in the source): result and number of
attempts made. -/
def make_request (attempts : Nat → ReqResult) (R : Nat) :
    Option (Except Nat Json) × Nat :=
  makeRequestLoop attempts R R 0

/-! ## Endpoint wrappers of `TeamCityClient`

Each wrapper issues one logical request through `_make_request` (the
`attempts` oracle is the transport behaviour of that request) and then
post-processes `response.json()`.  An exception raised by
`_make_request` propagates, except in `delete_project`, which catches
`requests.exceptions.RequestException`. -/

/-- Body post-processing of `get_projects`:
`response.json().get('project', [])`. -/
def parse_get_projects (body : Json) : Json :=
  (body.getKey "project").getD (Json.arr [])

/-- Body post-processing of `get_build_configurations`:
`response.json().get('buildType')` — Python `None` when absent. -/
def parse_get_build_configurations (body : Json) : Json :=
  (body.getKey "buildType").getD Json.null

/-- Body post-processing of `get_vcs_roots`:
`response.json().get('vcs-root', [])`. -/
def parse_get_vcs_roots (body : Json) : Json :=
  (body.getKey "vcs-root").getD (Json.arr [])

/-- Propagates the outcome of `_make_request`, applying `f` to the
decoded body of a successful response (`response.json()` then the
wrapper's own expression). -/
def wrapRequest (f : Json → Json) (attempts : Nat → ReqResult) (R : Nat) :
    Option (Except Nat Json) :=
  match (make_request attempts R).1 with
  | some (.ok body) => some (.ok (f body))
  | some (.error e) => some (.error e)
  | none => none

/-- `TeamCityClient.get_projects`. -/
def get_projects (attempts : Nat → ReqResult) (R : Nat) :
    Option (Except Nat Json) :=
  wrapRequest parse_get_projects attempts R

/-- `TeamCityClient.get_project`: returns `response.json()` as is. -/
def get_project (attempts : Nat → ReqResult) (R : Nat) :
    Option (Except Nat Json) :=
  wrapRequest id attempts R

/-- `TeamCityClient.create_project`: returns `response.json()` as is. -/
def create_project (attempts : Nat → ReqResult) (R : Nat) :
    Option (Except Nat Json) :=
  wrapRequest id attempts R

/-- `TeamCityClient.delete_project`: wraps `_make_request` in
`try/except requests.exceptions.RequestException`, returning `True` on
success and `False` when the exception was raised.  The `Except`
result channel records that no request exception escapes: the function
always returns normally (`.ok`). -/
def delete_project (attempts : Nat → ReqResult) (R : Nat) :
    Except Nat Bool :=
  match (make_request attempts R).1 with
  | some (.error _) => .ok false
  | _ => .ok true

/-- `TeamCityClient.get_versioned_settings`: returns `response.json()`. -/
def get_versioned_settings (attempts : Nat → ReqResult) (R : Nat) :
    Option (Except Nat Json) :=
  wrapRequest id attempts R

/-- `TeamCityClient.enable_versioned_settings`: returns
`response.json()`. -/
def enable_versioned_settings (attempts : Nat → ReqResult) (R : Nat) :
    Option (Except Nat Json) :=
  wrapRequest id attempts R

/-- `TeamCityClient.trigger_versioned_settings_sync`: returns
`response.json()`. -/
def trigger_versioned_settings_sync (attempts : Nat → ReqResult) (R : Nat) :
    Option (Except Nat Json) :=
  wrapRequest id attempts R

/-- `TeamCityClient.get_build_configurations`. -/
def get_build_configurations (attempts : Nat → ReqResult) (R : Nat) :
    Option (Except Nat Json) :=
  wrapRequest parse_get_build_configurations attempts R

/-- `TeamCityClient.get_build_status`: returns `response.json()`. -/
def get_build_status (attempts : Nat → ReqResult) (R : Nat) :
    Option (Except Nat Json) :=
  wrapRequest id attempts R

/-- `TeamCityClient.get_vcs_roots`. -/
def get_vcs_roots (attempts : Nat → ReqResult) (R : Nat) :
    Option (Except Nat Json) :=
  wrapRequest parse_get_vcs_roots attempts R

/-- `TeamCityClient.create_vcs_root`: returns `response.json()`. -/
def create_vcs_root (attempts : Nat → ReqResult) (R : Nat) :
    Option (Except Nat Json) :=
  wrapRequest id attempts R

/-- The `build_data` payload constructed by `TeamCityClient.trigger_build`
before posting to `/buildQueue`: `{'buildType': {'id': build_config_id}}`,
extended with the `properties` block only when `if properties:` is truthy
(the mapping is present — not Python `None` — and non-empty).
`properties` models the optional `Dict[str, str]` argument as an ordered
association list. -/
def trigger_build_payload (buildConfigId : String)
    (properties : Option (List (String × String))) : Json :=
  let buildData := [("buildType", Json.obj [("id", Json.str buildConfigId)])]
  match properties with
  | some props =>
    if props.isEmpty then
      Json.obj buildData
    else
      Json.obj (buildData ++
        [("properties", Json.obj [("property",
          Json.arr (props.map fun kv =>
            Json.obj [("name", Json.str kv.1), ("value", Json.str kv.2)]))])])
  | none => Json.obj buildData

/-- `TeamCityClient.trigger_build`: posts the payload and returns
`response.json()`. -/
def trigger_build (attempts : Nat → ReqResult) (R : Nat) :
    Option (Except Nat Json) :=
  wrapRequest id attempts R

/-! ## `TestHelpers.wait_for_condition` -/

/-- Default value of the `error_message` parameter of
`TestHelpers.wait_for_condition`. -/
def default_error_message : String := "Condition not met within timeout"

/-- The `while time.time() - start_time < timeout` loop of
`TestHelpers.wait_for_condition`, from iteration `k` on (elapsed time
`k * P`).  `cond j` is the value of `condition_func()` at its `j`-th
evaluation.  Returns the result (`some (.ok true)` = `return True`,
`some (.error msg)` = `raise TimeoutError(error_message)`, `none` =
fuel ran out) paired with the number of predicate evaluations and the
number of `time.sleep(poll_interval)` calls performed from this point. -/
def waitLoop (cond : Nat → Bool) (T P : Nat) (msg : String) :
    Nat → Nat → Option (Except String Bool) × Nat × Nat
  | 0, _ => (none, 0, 0)
  | fuel + 1, k =>
    if k * P < T then
      if cond k then
        (some (.ok true), 1, 0)
      else
        let r := waitLoop cond T P msg fuel (k + 1)
        (r.1, r.2.1 + 1, r.2.2 + 1)
    else
      (some (.error msg), 0, 0)

/-- `TestHelpers.wait_for_condition` with timeout `T`, poll interval
`P` and timeout message `msg`: result, number of predicate
evaluations, number of sleeps.  Fuel `T + 1` is sufficient whenever
`0 < P` (each iteration advances `k` by one and the guard fails once
`k * P ≥ T`, hence at latest at `k = T`). -/
def wait_for_condition (cond : Nat → Bool) (T P : Nat) (msg : String) :
    Option (Except String Bool) × Nat × Nat :=
  waitLoop cond T P msg (T + 1) 0

/-- The `project_ready` predicate of `test_dsl_import.py`: calls
`teamcity_client.get_project` and compares the `id` field to the
expected project id, with a bare `except:` mapping any exception to
`False`.  `oracle k` is the outcome of the `get_project` call at the
predicate's `k`-th evaluation. -/
def project_ready (oracle : Nat → Except Nat Json) (pid : String)
    (k : Nat) : Bool :=
  match oracle k with
  | .ok project =>
    match project.getKey "id" with
    | some (Json.str s) => s == pid
    | _ => false
  | .error _ => false

/-! ## `TeamCityClient.wait_for_build_completion` -/

/-- The decoded payload of one `get_build_status` poll; only the
`state` field is inspected by the loop, the rest of the payload is an
opaque token. -/
structure BuildInfo where
  state : Option String
  payloadId : Nat
deriving Repr, DecidableEq

/-- `state in ['finished', 'canceled']`. -/
def BuildInfo.isTerminal (b : BuildInfo) : Bool :=
  b.state == some "finished" || b.state == some "canceled"

/-- The polling loop of `TeamCityClient.wait_for_build_completion`,
from iteration `k` on; `infos j` is the payload returned by the `j`-th
`get_build_status` call.  Returns the result paired with the list of
sleep durations performed, in order (the `elif state == 'running'`
branch and the `else` branch of the source both sleep
`settings.POLL_INTERVAL`, here `P`). -/
def waitBuildLoop (infos : Nat → BuildInfo) (T P : Nat) (buildId : String) :
    Nat → Nat → Option (Except String BuildInfo) × List Nat
  | 0, _ => (none, [])
  | fuel + 1, k =>
    if k * P < T then
      let info := infos k
      if info.isTerminal then
        (some (.ok info), [])
      else if info.state == some "running" then
        let r := waitBuildLoop infos T P buildId fuel (k + 1)
        (r.1, P :: r.2)
      else
        let r := waitBuildLoop infos T P buildId fuel (k + 1)
        (r.1, P :: r.2)
    else
      (some (.error ("Build " ++ buildId ++ " did not complete within " ++
        toString T ++ " seconds")), [])

/-- `TeamCityClient.wait_for_build_completion` with caller timeout `T`
and `settings.POLL_INTERVAL` = `P`: result and the list of sleep
durations. -/
def wait_for_build_completion (infos : Nat → BuildInfo) (T P : Nat)
    (buildId : String) : Option (Except String BuildInfo) × List Nat :=
  waitBuildLoop infos T P buildId (T + 1) 0

/-! ## Arithmetic helpers -/

/-- Elapsed time is monotone in the iteration count. -/
theorem elapsed_mono {j k : Nat} (P : Nat) (h : k ≤ j) : k * P ≤ j * P :=
  Nat.mul_le_mul h (le_refl P)

/-- With a positive poll interval the iteration count bounds the
elapsed time from below. -/
theorem self_le_elapsed {k P : Nat} (hP : 0 < P) : k ≤ k * P := by
  have h := Nat.mul_le_mul (le_refl k) hP
  simpa using h

/-! ## Lemmas about `waitLoop` -/

/-- With positive poll interval and enough fuel, `waitLoop` never runs
out of fuel. -/
theorem waitLoop_isSome (cond : Nat → Bool) (T P : Nat) (msg : String)
    (hP : 0 < P) :
    ∀ fuel k, T ≤ k + fuel →
      ((waitLoop cond T P msg (fuel + 1) k).1).isSome = true := by
  intro fuel
  induction fuel with
  | zero =>
    intro k hk
    have hkP : k ≤ k * P := self_le_elapsed hP
    simp only [waitLoop]
    rw [if_neg (by omega)]
    rfl
  | succ fuel ih =>
    intro k hk
    simp only [waitLoop]
    by_cases hg : k * P < T
    · rw [if_pos hg]
      by_cases hc : cond k = true
      · rw [if_pos hc]
        rfl
      · rw [if_neg hc]
        exact ih (k + 1) (by omega)
    · rw [if_neg hg]
      rfl

/-- `waitLoop` returns success exactly when some evaluation inside the
timeout window comes back true. -/
theorem waitLoop_ok_iff (cond : Nat → Bool) (T P : Nat) (msg : String)
    (hP : 0 < P) :
    ∀ fuel k, T ≤ k + fuel →
      ((waitLoop cond T P msg fuel k).1 = some (.ok true) ↔
        ∃ j, k ≤ j ∧ j * P < T ∧ cond j = true) := by
  intro fuel
  induction fuel with
  | zero =>
    intro k hk
    simp only [waitLoop]
    constructor
    · intro h
      simp at h
    · rintro ⟨j, hkj, hj, -⟩
      have h1 : j ≤ j * P := self_le_elapsed hP
      omega
  | succ fuel ih =>
    intro k hk
    simp only [waitLoop]
    by_cases hg : k * P < T
    · rw [if_pos hg]
      by_cases hc : cond k = true
      · rw [if_pos hc]
        constructor
        · intro _
          exact ⟨k, le_refl k, hg, hc⟩
        · intro _
          rfl
      · rw [if_neg hc]
        rw [ih (k + 1) (by omega)]
        constructor
        · rintro ⟨j, hkj, hj, hcj⟩
          exact ⟨j, by omega, hj, hcj⟩
        · rintro ⟨j, hkj, hj, hcj⟩
          refine ⟨j, ?_, hj, hcj⟩
          rcases Nat.eq_or_lt_of_le hkj with rfl | hlt
          · rw [hcj] at hc
            exact absurd rfl hc
          · omega
    · rw [if_neg hg]
      constructor
      · intro h
        simp at h
      · rintro ⟨j, hkj, hj, -⟩
        have h1 : k * P ≤ j * P := elapsed_mono P hkj
        omega

/-- When every evaluation inside the window comes back false,
`waitLoop` raises the timeout error with the configured message. -/
theorem waitLoop_timeout (cond : Nat → Bool) (T P : Nat) (msg : String)
    (hP : 0 < P) :
    ∀ fuel k, T ≤ k + fuel →
      (∀ j, k ≤ j → j * P < T → cond j = false) →
      (waitLoop cond T P msg (fuel + 1) k).1 = some (.error msg) := by
  intro fuel
  induction fuel with
  | zero =>
    intro k hk _
    have hkP : k ≤ k * P := self_le_elapsed hP
    simp only [waitLoop]
    rw [if_neg (by omega)]
  | succ fuel ih =>
    intro k hk hcond
    simp only [waitLoop]
    by_cases hg : k * P < T
    · rw [if_pos hg]
      have hck : cond k = false := hcond k (le_refl k) hg
      rw [if_neg (by simp [hck])]
      exact ih (k + 1) (by omega) (fun j hj hjP => hcond j (by omega) hjP)
    · rw [if_neg hg]

/-- Exact behaviour when the first true evaluation is the `m`-th one
inside the window: success after `m - k + 1` evaluations and `m - k`
sleeps. -/
theorem waitLoop_firstTrue (cond : Nat → Bool) (T P : Nat) (msg : String)
    (hP : 0 < P) :
    ∀ fuel k m, k ≤ m → m * P < T →
      (∀ j, k ≤ j → j < m → cond j = false) → cond m = true →
      m - k < fuel →
      waitLoop cond T P msg fuel k = (some (.ok true), m - k + 1, m - k) := by
  intro fuel
  induction fuel with
  | zero =>
    intro k m _ _ _ _ hfuel
    omega
  | succ fuel ih =>
    intro k m hkm hm hfalse htrue hfuel
    have hkT : k * P < T := lt_of_le_of_lt (elapsed_mono P hkm) hm
    simp only [waitLoop]
    rw [if_pos hkT]
    rcases Nat.eq_or_lt_of_le hkm with rfl | hlt
    · rw [if_pos htrue]
      simp
    · have hck : cond k = false := hfalse k (le_refl k) hlt
      rw [if_neg (by simp [hck])]
      rw [ih (k + 1) m (by omega) hm
        (fun j hj hjm => hfalse j (by omega) hjm) htrue (by omega)]
      have h1 : m - (k + 1) + 1 + 1 = m - k + 1 := by omega
      have h2 : m - (k + 1) + 1 = m - k := by omega
      rw [h1, h2]

/-- The number of predicate evaluations performed from iteration `k`
on is at most `⌈T / P⌉ - k`. -/
theorem waitLoop_evals_le (cond : Nat → Bool) (T P : Nat) (msg : String)
    (hP : 0 < P) :
    ∀ fuel k, (waitLoop cond T P msg fuel k).2.1 ≤ (T + P - 1) / P - k := by
  intro fuel
  induction fuel with
  | zero =>
    intro k
    simp [waitLoop]
  | succ fuel ih =>
    intro k
    have hceil : k * P < T → k + 1 ≤ (T + P - 1) / P := by
      intro hg
      rw [Nat.le_div_iff_mul_le hP]
      have : (k + 1) * P = k * P + P := by ring
      omega
    simp only [waitLoop]
    by_cases hg : k * P < T
    · rw [if_pos hg]
      by_cases hc : cond k = true
      · rw [if_pos hc]
        have := hceil hg
        simp only
        omega
      · rw [if_neg hc]
        have h1 := ih (k + 1)
        have h2 := hceil hg
        simp only
        omega
    · rw [if_neg hg]
      simp

/-- Every sleep is preceded by a failed predicate evaluation, so the
sleep count never exceeds the evaluation count. -/
theorem waitLoop_sleeps_le_evals (cond : Nat → Bool) (T P : Nat)
    (msg : String) :
    ∀ fuel k,
      (waitLoop cond T P msg fuel k).2.2 ≤ (waitLoop cond T P msg fuel k).2.1 := by
  intro fuel
  induction fuel with
  | zero =>
    intro k
    simp [waitLoop]
  | succ fuel ih =>
    intro k
    simp only [waitLoop]
    by_cases hg : k * P < T
    · rw [if_pos hg]
      by_cases hc : cond k = true
      · rw [if_pos hc]
        simp
      · rw [if_neg hc]
        have := ih (k + 1)
        simp only
        omega
    · rw [if_neg hg]

/-! ## Lemmas about `makeRequestLoop` -/

/-- One iteration whose attempt succeeds returns the body at once. -/
theorem makeRequestLoop_step_success (attempts : Nat → ReqResult)
    (R fuel a : Nat) (body : Json) (ha : a < R)
    (h : attempts a = .success body) :
    makeRequestLoop attempts R (fuel + 1) a = (some (.ok body), 1) := by
  simp [makeRequestLoop, ha, h]

/-- The final iteration whose attempt fails re-raises the error. -/
theorem makeRequestLoop_step_raise (attempts : Nat → ReqResult)
    (R fuel a e : Nat) (ha : a < R) (hend : a = R - 1)
    (h : attempts a = .failure e) :
    makeRequestLoop attempts R (fuel + 1) a = (some (.error e), 1) := by
  subst hend
  simp [makeRequestLoop, ha, h]

/-- A non-final iteration whose attempt fails sleeps and retries. -/
theorem makeRequestLoop_step_retry (attempts : Nat → ReqResult)
    (R fuel a e : Nat) (ha : a < R) (hend : a ≠ R - 1)
    (h : attempts a = .failure e) :
    makeRequestLoop attempts R (fuel + 1) a =
      ((makeRequestLoop attempts R fuel (a + 1)).1,
       (makeRequestLoop attempts R fuel (a + 1)).2 + 1) := by
  simp [makeRequestLoop, ha, h, hend]

/-- When every attempt before `R - 1` fails and attempt `R - 1`
succeeds, the retry loop returns the successful body after consuming
all remaining attempts. -/
theorem makeRequestLoop_success (attempts : Nat → ReqResult) (R : Nat)
    (body : Json) (hbody : attempts (R - 1) = .success body) :
    ∀ fuel a, a + fuel = R → a + 1 ≤ R →
      (∀ i, a ≤ i → i + 1 < R → (attempts i).isFailure = true) →
      makeRequestLoop attempts R fuel a = (some (.ok body), R - a) := by
  intro fuel
  induction fuel with
  | zero =>
    intro a ha ha1 _
    omega
  | succ fuel ih =>
    intro a ha ha1 hfail
    by_cases hlast : a + 1 = R
    · have haR : a = R - 1 := by omega
      rw [makeRequestLoop_step_success attempts R fuel a body (by omega)
        (by rw [haR]; exact hbody)]
      have : R - a = 1 := by omega
      rw [this]
    · have hfa := hfail a (le_refl a) (by omega)
      rcases h : attempts a with b | e
      · rw [h] at hfa
        simp [ReqResult.isFailure] at hfa
      · rw [makeRequestLoop_step_retry attempts R fuel a e (by omega)
          (by omega) h]
        rw [ih (a + 1) (by omega) (by omega)
          (fun i hi hi1 => hfail i (by omega) hi1)]
        have : R - (a + 1) + 1 = R - a := by omega
        rw [this]

/-- When every attempt fails, the retry loop re-raises the final
attempt's error after consuming all remaining attempts. -/
theorem makeRequestLoop_allFail (attempts : Nat → ReqResult) (R : Nat)
    (e : Nat) (hlast : attempts (R - 1) = .failure e) :
    ∀ fuel a, a + fuel = R → a < R →
      (∀ i, a ≤ i → i < R → (attempts i).isFailure = true) →
      makeRequestLoop attempts R fuel a = (some (.error e), R - a) := by
  intro fuel
  induction fuel with
  | zero =>
    intro a ha ha1 _
    omega
  | succ fuel ih =>
    intro a ha ha1 hfail
    by_cases hend : a = R - 1
    · rw [makeRequestLoop_step_raise attempts R fuel a e ha1 hend
        (by rw [hend]; exact hlast)]
      have : R - a = 1 := by omega
      rw [this]
    · have hfa := hfail a (le_refl a) ha1
      rcases h : attempts a with b | e'
      · rw [h] at hfa
        simp [ReqResult.isFailure] at hfa
      · rw [makeRequestLoop_step_retry attempts R fuel a e' ha1 hend h]
        rw [ih (a + 1) (by omega) (by omega)
          (fun i hi hi1 => hfail i (by omega) hi1)]
        have : R - (a + 1) + 1 = R - a := by omega
        rw [this]

/-! ## Lemmas about `waitBuildLoop` -/

/-- When the first terminal status inside the window is the `m`-th
poll, the build wait returns that payload, having slept exactly the
fixed poll interval `m - k` times regardless of the intervening
non-terminal states. -/
theorem waitBuildLoop_firstTerminal (infos : Nat → BuildInfo) (T P : Nat)
    (buildId : String) :
    ∀ fuel k m, k ≤ m → m * P < T →
      (∀ j, k ≤ j → j < m → (infos j).isTerminal = false) →
      (infos m).isTerminal = true → m - k < fuel →
      waitBuildLoop infos T P buildId fuel k =
        (some (.ok (infos m)), List.replicate (m - k) P) := by
  intro fuel
  induction fuel with
  | zero =>
    intro k m _ _ _ _ hfuel
    omega
  | succ fuel ih =>
    intro k m hkm hm hfalse hterm hfuel
    have hkT : k * P < T := lt_of_le_of_lt (elapsed_mono P hkm) hm
    simp only [waitBuildLoop]
    rw [if_pos hkT]
    rcases Nat.eq_or_lt_of_le hkm with rfl | hlt
    · rw [if_pos hterm]
      simp
    · have hk : (infos k).isTerminal = false := hfalse k (le_refl k) hlt
      rw [if_neg (by simp [hk])]
      rw [ih (k + 1) m (by omega) hm
        (fun j hj hjm => hfalse j (by omega) hjm) hterm (by omega)]
      have hrep : P :: List.replicate (m - (k + 1)) P =
          List.replicate (m - k) P := by
        have : m - k = (m - (k + 1)) + 1 := by omega
        rw [this, List.replicate_succ]
      by_cases hrun : (infos k).state == some "running"
      · rw [if_pos hrun, hrep]
      · rw [if_neg hrun, hrep]

/-- When no poll inside the window is terminal, the build wait raises
the dedicated timeout error. -/
theorem waitBuildLoop_timeout (infos : Nat → BuildInfo) (T P : Nat)
    (buildId : String) (hP : 0 < P) :
    ∀ fuel k, T ≤ k + fuel →
      (∀ j, k ≤ j → j * P < T → (infos j).isTerminal = false) →
      (waitBuildLoop infos T P buildId (fuel + 1) k).1 =
        some (.error ("Build " ++ buildId ++ " did not complete within " ++
          toString T ++ " seconds")) := by
  intro fuel
  induction fuel with
  | zero =>
    intro k hk _
    have hkP : k ≤ k * P := self_le_elapsed hP
    simp only [waitBuildLoop]
    rw [if_neg (by omega)]
  | succ fuel ih =>
    intro k hk hnone
    simp only [waitBuildLoop]
    by_cases hg : k * P < T
    · rw [if_pos hg]
      have hk0 : (infos k).isTerminal = false := hnone k (le_refl k) hg
      rw [if_neg (by simp [hk0])]
      have htail := ih (k + 1) (by omega)
        (fun j hj hjP => hnone j (by omega) hjP)
      by_cases hrun : (infos k).state == some "running"
      · rw [if_pos hrun]
        exact htail
      · rw [if_neg hrun]
        exact htail
    · rw [if_neg hg]

/-! ## Claims -/

/-- C1: for every retry budget `R ≥ 1`, if the first `R - 1` attempts
fail and attempt `R` succeeds, `_make_request` returns the successful
response after exactly `R` attempts; if all `R` attempts fail, it
re-raises the last attempt's error after exactly `R` attempts (not
`R + 1`). -/
theorem claim_C1 (attempts : Nat → ReqResult) (R : Nat) (hR : 1 ≤ R) :
    (∀ body, (∀ i, i + 1 < R → (attempts i).isFailure = true) →
      attempts (R - 1) = .success body →
      make_request attempts R = (some (.ok body), R))
    ∧ (∀ e, (∀ i, i < R → (attempts i).isFailure = true) →
      attempts (R - 1) = .failure e →
      make_request attempts R = (some (.error e), R)) := by
  constructor
  · intro body hfail hsucc
    have h := makeRequestLoop_success attempts R body hsucc R 0 (by omega) hR
      (fun i _ hi1 => hfail i hi1)
    simpa [make_request] using h
  · intro e hfail hlast
    have h := makeRequestLoop_allFail attempts R e hlast R 0 (by omega)
      (by omega) (fun i _ hi => hfail i hi)
    simpa [make_request] using h

/-- Witness for C1 at retry budgets 2 and 3: one failure then a
success returns the body after 2 attempts; three failures raise the
third error after 3 attempts. -/
theorem claim_C1_witness :
    make_request
        (fun i => if i = 0 then .failure 7 else .success (Json.obj [])) 2 =
      (some (.ok (Json.obj [])), 2)
    ∧ make_request (fun i => .failure (10 + i)) 3 =
      (some (.error 12), 3) := by
  constructor
  · exact (claim_C1 _ 2 (by omega)).1 (Json.obj [])
      (by intro i hi
          have h0 : i = 0 := by omega
          subst h0
          rfl)
      rfl
  · exact (claim_C1 _ 3 (by omega)).2 12 (fun i _ => rfl) rfl

/-- C2: `wait_for_condition` returns `True` exactly when some
evaluation inside the timeout window comes back true; when every
in-window evaluation is false it raises `TimeoutError` carrying the
supplied message (the caller's, or `default_error_message` by
default). -/
theorem claim_C2 (cond : Nat → Bool) (T P : Nat) (msg : String)
    (hP : 0 < P) :
    ((wait_for_condition cond T P msg).1 = some (.ok true) ↔
      ∃ k, k * P < T ∧ cond k = true)
    ∧ ((∀ k, k * P < T → cond k = false) →
      (wait_for_condition cond T P msg).1 = some (.error msg)) := by
  constructor
  · have h := waitLoop_ok_iff cond T P msg hP (T + 1) 0 (by omega)
    unfold wait_for_condition
    rw [h]
    constructor
    · rintro ⟨j, -, hj, hcj⟩
      exact ⟨j, hj, hcj⟩
    · rintro ⟨j, hj, hcj⟩
      exact ⟨j, Nat.zero_le j, hj, hcj⟩
  · intro hfalse
    exact waitLoop_timeout cond T P msg hP T 0 (by omega)
      (fun j _ hjP => hfalse j hjP)

/-- Witness for C2: a predicate true at its second evaluation succeeds
within a window of 5 with poll interval 2; the always-false predicate
raises the timeout error with the default message. -/
theorem claim_C2_witness :
    (wait_for_condition (fun k => k == 1) 5 2 "boom").1 =
      some (.ok true)
    ∧ (wait_for_condition (fun _ => false) 5 2 default_error_message).1 =
      some (.error default_error_message) := by
  constructor
  · exact (claim_C2 (fun k => k == 1) 5 2 "boom" (by omega)).1.mpr
      ⟨1, by omega, rfl⟩
  · exact (claim_C2 (fun _ => false) 5 2 default_error_message
      (by omega)).2 (fun _ _ => rfl)

/-- C3 as stated is false: with timeout 0 the `while` guard
`time.time() - start_time < timeout` fails before the predicate is
ever evaluated, so even the always-true predicate yields
`TimeoutError` with zero evaluations and zero sleeps, not success. -/
theorem claim_C3_counterexample :
    wait_for_condition (fun _ => true) 0 2 default_error_message =
      (some (.error default_error_message), 0, 0) := by
  rfl

/-- C3 amended: for every timeout `T > 0` and poll interval `P > 0`
the predicate is evaluated at least once, and with an always-true
predicate `wait_for_condition` returns success after exactly one
evaluation and zero sleeps. -/
theorem claim_C3_amended (cond : Nat → Bool) (T P : Nat) (msg : String)
    (hT : 0 < T) (hP : 0 < P) :
    1 ≤ (wait_for_condition cond T P msg).2.1
    ∧ ((∀ k, cond k = true) →
      wait_for_condition cond T P msg = (some (.ok true), 1, 0)) := by
  constructor
  · unfold wait_for_condition
    rcases hfuel : T + 1 with - | fuel
    · omega
    · simp only [waitLoop]
      rw [if_pos (by simpa using hT)]
      by_cases hc : cond 0 = true
      · rw [if_pos hc]
      · rw [if_neg hc]
        simp only
        omega
  · intro hall
    have h := waitLoop_firstTrue cond T P msg hP (T + 1) 0 0 (le_refl 0)
      (by simpa using hT) (fun j _ hj => absurd hj (by omega)) (hall 0)
      (by omega)
    simpa [wait_for_condition] using h

/-- Witness for C3 amended: with the configured timeout 30 and poll
interval 2, the always-true predicate returns success with one
evaluation and no sleep, and an eventually-true predicate performs at
least one evaluation. -/
theorem claim_C3_amended_witness :
    wait_for_condition (fun _ => true) 30 2 default_error_message =
      (some (.ok true), 1, 0)
    ∧ 1 ≤ (wait_for_condition (fun k => k == 5) 30 2
        default_error_message).2.1 := by
  constructor
  · exact (claim_C3_amended (fun _ => true) 30 2 default_error_message
      (by omega) (by omega)).2 (fun _ => rfl)
  · exact (claim_C3_amended (fun k => k == 5) 30 2 default_error_message
      (by omega) (by omega)).1

/-- C7: with `T > 0` and `P > 0` every invocation of
`wait_for_condition` terminates (the loop exits with a result — the
fuel bound `T + 1` is never hit), and the number of predicate
evaluations is at most `⌈T / P⌉ + 1`. -/
theorem claim_C7 (cond : Nat → Bool) (T P : Nat) (msg : String)
    (hT : 0 < T) (hP : 0 < P) :
    ((wait_for_condition cond T P msg).1).isSome = true
    ∧ (wait_for_condition cond T P msg).2.1 ≤ (T + P - 1) / P + 1 := by
  constructor
  · exact waitLoop_isSome cond T P msg hP T 0 (by omega)
  · calc (wait_for_condition cond T P msg).2.1
        = (waitLoop cond T P msg (T + 1) 0).2.1 := rfl
      _ ≤ (T + P - 1) / P - 0 := waitLoop_evals_le cond T P msg hP (T + 1) 0
      _ = (T + P - 1) / P := Nat.sub_zero _
      _ ≤ (T + P - 1) / P + 1 := Nat.le_succ _

/-- Witness for C7 at the configured timeout 30 and poll interval 2:
the result is defined and at most 16 evaluations happen. -/
theorem claim_C7_witness :
    ((wait_for_condition (fun _ => false) 30 2
        default_error_message).1).isSome = true
    ∧ (wait_for_condition (fun _ => false) 30 2
        default_error_message).2.1 ≤ (30 + 2 - 1) / 2 + 1 := by
  exact claim_C7 (fun _ => false) 30 2 default_error_message
    (by omega) (by omega)

/-- C4: `wait_for_build_completion` returns the first status payload
whose `state` is `finished` or `canceled`, sleeping the fixed poll
interval between consecutive checks regardless of the non-terminal
state returned (a `running` state is scheduled identically to any
other non-terminal state), and raises its dedicated timeout error when
no terminal state appears inside the window. -/
theorem claim_C4 (infos : Nat → BuildInfo) (T P : Nat) (buildId : String)
    (hP : 0 < P) :
    (∀ m, m * P < T →
      (∀ j, j < m → (infos j).isTerminal = false) →
      (infos m).isTerminal = true →
      wait_for_build_completion infos T P buildId =
        (some (.ok (infos m)), List.replicate m P))
    ∧ ((∀ k, k * P < T → (infos k).isTerminal = false) →
      (wait_for_build_completion infos T P buildId).1 =
        some (.error ("Build " ++ buildId ++ " did not complete within " ++
          toString T ++ " seconds"))) := by
  constructor
  · intro m hm hfalse hterm
    have hmT : m ≤ m * P := self_le_elapsed hP
    have h := waitBuildLoop_firstTerminal infos T P buildId (T + 1) 0 m
      (Nat.zero_le m) hm (fun j _ hj => hfalse j hj) hterm (by omega)
    simpa [wait_for_build_completion] using h
  · intro hall
    exact waitBuildLoop_timeout infos T P buildId hP T 0 (by omega)
      (fun j _ hjP => hall j hjP)

/-- Witness for C4: two non-terminal polls (`running`, then `queued`)
followed by a `finished` poll return the third payload after two fixed
sleeps; an always-`running` build raises the dedicated timeout error. -/
theorem claim_C4_witness :
    wait_for_build_completion
        (fun k => if k = 0 then ⟨some "running", 0⟩
          else if k = 1 then ⟨some "queued", 1⟩
          else ⟨some "finished", 2⟩) 30 2 "42" =
      (some (.ok ⟨some "finished", 2⟩), List.replicate 2 2)
    ∧ (wait_for_build_completion (fun _ => ⟨some "running", 0⟩)
        30 2 "42").1 =
      some (.error ("Build " ++ "42" ++ " did not complete within " ++
        toString 30 ++ " seconds")) := by
  constructor
  · exact (claim_C4 _ 30 2 "42" (by omega)).1 2 (by omega)
      (by intro j hj
          interval_cases j <;> rfl)
      rfl
  · exact (claim_C4 _ 30 2 "42" (by omega)).2 (fun _ _ => rfl)

/-- C5 as stated is false: after the retry budget is exhausted,
`delete_project` does not propagate the final failure — it catches the
request exception and returns `False` — while e.g. `get_project` does
propagate it. -/
theorem claim_C5_counterexample :
    delete_project (fun _ => .failure 7) 3 = .ok false
    ∧ get_project (fun _ => .failure 7) 3 = some (.error 7) := by
  constructor <;> rfl

/-- C5 amended: after the retry budget is exhausted, the final failure
propagates unmodified through every endpoint wrapper except
`delete_project`, which catches the request exception and returns
`False`; no wrapper retries or validates on its own. -/
theorem claim_C5_amended (attempts : Nat → ReqResult) (R e : Nat)
    (hR : 1 ≤ R)
    (hfail : ∀ i, i < R → (attempts i).isFailure = true)
    (hlast : attempts (R - 1) = .failure e) :
    get_projects attempts R = some (.error e)
    ∧ get_project attempts R = some (.error e)
    ∧ create_project attempts R = some (.error e)
    ∧ get_versioned_settings attempts R = some (.error e)
    ∧ enable_versioned_settings attempts R = some (.error e)
    ∧ trigger_versioned_settings_sync attempts R = some (.error e)
    ∧ get_build_configurations attempts R = some (.error e)
    ∧ trigger_build attempts R = some (.error e)
    ∧ get_build_status attempts R = some (.error e)
    ∧ get_vcs_roots attempts R = some (.error e)
    ∧ create_vcs_root attempts R = some (.error e)
    ∧ delete_project attempts R = .ok false := by
  have hmr : (make_request attempts R).1 = some (.error e) := by
    rw [make_request, makeRequestLoop_allFail attempts R e hlast R 0
      (by omega) (by omega) (fun i _ hi => hfail i hi)]
  refine ⟨?_, ?_, ?_, ?_, ?_, ?_, ?_, ?_, ?_, ?_, ?_, ?_⟩ <;>
    simp [get_projects, get_project, create_project, get_versioned_settings,
      enable_versioned_settings, trigger_versioned_settings_sync,
      get_build_configurations, trigger_build, get_build_status,
      get_vcs_roots, create_vcs_root, delete_project, wrapRequest, hmr]

/-- Witness for C5 amended at the configured retry budget 3 with all
attempts failing with error 7. -/
theorem claim_C5_amended_witness :
    get_projects (fun _ => .failure 7) 3 = some (.error 7)
    ∧ create_project (fun _ => .failure 7) 3 = some (.error 7)
    ∧ get_vcs_roots (fun _ => .failure 7) 3 = some (.error 7)
    ∧ delete_project (fun _ => .failure 7) 3 = .ok false := by
  have h := claim_C5_amended (fun _ => .failure 7) 3 7 (by omega)
    (fun i _ => rfl) rfl
  exact ⟨h.1, h.2.2.1, h.2.2.2.2.2.2.2.2.2.1, h.2.2.2.2.2.2.2.2.2.2.2⟩

/-- C6: an exception raised inside the polling predicate
(`project_ready` wraps its `get_project` call in a bare `except`
returning `False`) is treated as "condition not yet met": polling
continues past faulting evaluations to a later success, and when every
in-window call faults the wait ends in the poller's timeout error, not
in the predicate's exception. -/
theorem claim_C6 (oracle : Nat → Except Nat Json) (pid : String)
    (T P : Nat) (msg : String) (hP : 0 < P) :
    (∀ m, m * P < T →
      (∀ j, j < m → ∃ e, oracle j = .error e) →
      oracle m = .ok (Json.obj [("id", Json.str pid)]) →
      wait_for_condition (project_ready oracle pid) T P msg =
        (some (.ok true), m + 1, m))
    ∧ ((∀ k, k * P < T → ∃ e, oracle k = .error e) →
      (wait_for_condition (project_ready oracle pid) T P msg).1 =
        some (.error msg)) := by
  constructor
  · intro m hm herr hok
    have hmT : m ≤ m * P := self_le_elapsed hP
    have hfalse : ∀ j, 0 ≤ j → j < m →
        project_ready oracle pid j = false := by
      intro j _ hj
      rcases herr j hj with ⟨e, he⟩
      simp [project_ready, he]
    have htrue : project_ready oracle pid m = true := by
      simp [project_ready, hok, Json.getKey]
    have h := waitLoop_firstTrue (project_ready oracle pid) T P msg hP
      (T + 1) 0 m (Nat.zero_le m) hm hfalse htrue (by omega)
    simpa [wait_for_condition] using h
  · intro hall
    exact waitLoop_timeout (project_ready oracle pid) T P msg hP T 0
      (by omega)
      (fun j _ hjP => by
        rcases hall j hjP with ⟨e, he⟩
        simp [project_ready, he])

/-- Witness for C6: two faulting `get_project` calls followed by a
matching payload succeed after three evaluations and two sleeps; an
always-faulting call ends in the poller's timeout error. -/
theorem claim_C6_witness :
    wait_for_condition
        (project_ready
          (fun k => if k < 2 then .error 9
            else .ok (Json.obj [("id", Json.str "TestProject")]))
          "TestProject") 30 2 default_error_message =
      (some (.ok true), 3, 2)
    ∧ (wait_for_condition (project_ready (fun _ => .error 4) "TestProject")
        30 2 default_error_message).1 =
      some (.error default_error_message) := by
  constructor
  · exact ((claim_C6 _ "TestProject" 30 2 default_error_message
      (by omega)).1 2 (by omega)
      (by intro j hj
          exact ⟨9, if_pos hj⟩)
      rfl)
  · exact (claim_C6 _ "TestProject" 30 2 default_error_message
      (by omega)).2 (fun k _ => ⟨4, rfl⟩)

/-- C8: exactly one authentication mode is active on a configured
session: a non-empty token puts `Authorization: Bearer <token>` (and
only that) in the session headers sent with every request and leaves
basic auth unset; an empty token sets HTTP basic auth to the
configured username/password and adds no `Authorization` header —
never both modes and never neither. -/
theorem claim_C8 (token user pw : String) :
    (clientInit token user pw).headers =
      (if token = "" then [] else [("Authorization", "Bearer " ++ token)]) ++
        [("Accept", "application/json"), ("Content-Type", "application/json")]
    ∧ (clientInit token user pw).basicAuth =
      (if token = "" then some (user, pw) else none)
    ∧ hasAuthHeader (clientInit token user pw) =
      !((clientInit token user pw).basicAuth).isSome := by
  by_cases h : token = "" <;>
    simp [clientInit, Settings.auth, hasAuthHeader, h]

/-- C9: the `/buildQueue` payload built by `trigger_build` always has
`buildType.id` equal to the given configuration id; the `properties`
block — `{'property': [{'name': k, 'value': v}, ...]}` with one entry
per parameter — is present exactly when the parameter mapping is
supplied and non-empty, and absent when no parameters are given. -/
theorem claim_C9 (buildConfigId : String)
    (properties : Option (List (String × String))) :
    (trigger_build_payload buildConfigId properties).getKey "buildType" =
      some (Json.obj [("id", Json.str buildConfigId)])
    ∧ (((trigger_build_payload buildConfigId properties).getKey
        "properties").isSome = true ↔
        ∃ props, properties = some props ∧ props ≠ [])
    ∧ (∀ props, properties = some props → props ≠ [] →
        (trigger_build_payload buildConfigId properties).getKey
          "properties" =
          some (Json.obj [("property", Json.arr (props.map fun kv =>
            Json.obj [("name", Json.str kv.1),
                      ("value", Json.str kv.2)]))]))
    ∧ (properties = none →
        (trigger_build_payload buildConfigId properties).getKey
          "properties" = none) := by
  rcases properties with - | props
  · refine ⟨rfl, ?_, ?_, fun _ => rfl⟩
    · simp [trigger_build_payload, Json.getKey]
    · intro props hcontra
      exact absurd hcontra (by simp)
  · by_cases hemp : props = []
    · subst hemp
      refine ⟨rfl, ?_, ?_, ?_⟩
      · simp [trigger_build_payload, Json.getKey]
      · intro props' hp hne
        have : props' = ([] : List (String × String)) := by
          injection hp with hp'
          exact hp'.symm
        exact absurd this hne
      · intro hcontra
        exact absurd hcontra (by simp)
    · have hne : props.isEmpty = false := by
        simpa [List.isEmpty_iff] using hemp
      refine ⟨?_, ?_, ?_, ?_⟩
      · simp [trigger_build_payload, hne, Json.getKey, List.lookup]
      · simp only [trigger_build_payload, hne]
        constructor
        · intro _
          exact ⟨props, rfl, hemp⟩
        · intro _
          simp [Json.getKey, List.lookup]
      · intro props' hp hne'
        have hpp : props' = props := by
          injection hp with hp'
          exact hp'.symm
        subst hpp
        simp [trigger_build_payload, hne, Json.getKey, List.lookup]
      · intro hcontra
        exact absurd hcontra (by simp)

/-- Witness for C9: two parameters yield a payload with the
`buildType` block and a two-entry `properties.property` array; no
parameters yield a payload without the `properties` key. -/
theorem claim_C9_witness :
    (trigger_build_payload "Cfg" (some [("k1", "v1"), ("k2", "v2")])).getKey
        "buildType" = some (Json.obj [("id", Json.str "Cfg")])
    ∧ (trigger_build_payload "Cfg" (some [("k1", "v1"), ("k2", "v2")])).getKey
        "properties" =
      some (Json.obj [("property", Json.arr
        [Json.obj [("name", Json.str "k1"), ("value", Json.str "v1")],
         Json.obj [("name", Json.str "k2"), ("value", Json.str "v2")]])])
    ∧ (trigger_build_payload "Cfg" none).getKey "properties" = none := by
  refine ⟨(claim_C9 "Cfg" (some [("k1", "v1"), ("k2", "v2")])).1, ?_,
    (claim_C9 "Cfg" none).2.2.2 rfl⟩
  have h := (claim_C9 "Cfg" (some [("k1", "v1"), ("k2", "v2")])).2.2.1
    [("k1", "v1"), ("k2", "v2")] rfl (by simp)
  simpa using h

/-- C10: on a successful listing response missing the relevant key,
`get_build_configurations` returns Python `None` (modelled
`Json.null`) while `get_projects` and `get_vcs_roots` return the empty
list — so the three listing operations disagree on the empty-result
representation. -/
theorem claim_C10 (body : Json)
    (hbt : body.getKey "buildType" = none)
    (hpr : body.getKey "project" = none)
    (hvr : body.getKey "vcs-root" = none) :
    get_build_configurations (fun _ => .success body) MAX_RETRIES =
      some (.ok Json.null)
    ∧ get_projects (fun _ => .success body) MAX_RETRIES =
      some (.ok (Json.arr []))
    ∧ get_vcs_roots (fun _ => .success body) MAX_RETRIES =
      some (.ok (Json.arr []))
    ∧ Json.null ≠ Json.arr [] := by
  have hmr : (make_request (fun _ => ReqResult.success body)
      MAX_RETRIES).1 = some (.ok body) := rfl
  refine ⟨?_, ?_, ?_, fun h => Json.noConfusion h⟩
  · simp [get_build_configurations, wrapRequest, hmr,
      parse_get_build_configurations, hbt]
  · simp [get_projects, wrapRequest, hmr, parse_get_projects, hpr]
  · simp [get_vcs_roots, wrapRequest, hmr, parse_get_vcs_roots, hvr]

/-- Witness for C10 on the response body `{"count": 0}`, which has
none of the three listing keys. -/
theorem claim_C10_witness :
    get_build_configurations
        (fun _ => .success (Json.obj [("count", Json.num 0)]))
        MAX_RETRIES = some (.ok Json.null)
    ∧ get_projects (fun _ => .success (Json.obj [("count", Json.num 0)]))
        MAX_RETRIES = some (.ok (Json.arr []))
    ∧ get_vcs_roots (fun _ => .success (Json.obj [("count", Json.num 0)]))
        MAX_RETRIES = some (.ok (Json.arr []))
    ∧ Json.null ≠ Json.arr [] := by
  exact claim_C10 (Json.obj [("count", Json.num 0)]) rfl rfl rfl
